import Mathlib

/-!
Verification of `pdf_chapter_chunker.py` (PDF Chapter Chunker v2.0.0).

This file is a shallow embedding of the pure core of the program:
the TOC pattern matcher (`extract_toc_from_text` and the five regular
expressions in `toc_patterns`), the TOC locator (`extract_toc_from_pdf`),
the filename sanitizer (`sanitize_filename`), the two chunk planners
(`split_by_chapters` lines 196-248, `split_by_pages` lines 285-330), the
output-directory derivation, and the orchestration in `main`.

Python strings are modelled as `List Char` (the program only handles
text); Python's arbitrary-precision ints are modelled as `Nat` — the only
subtractions in the source are `page - 1` guarded by `max(0, ...)` or by
page values that the matcher constrains to `1 ≤ page`, and clamping makes
the `Nat`-truncated value agree with Python's signed value at every
observation point (see the comments at the definitions).  I/O (reading
pages, writing files) is modelled by oracles in a `World` structure.
-/

/-! ### Python string primitives -/

/-- Python whitespace, as matched by `str.strip`, `str.split()` and `\s`
(ASCII part; the program's inputs here are ASCII). -/
def pyIsSpace (c : Char) : Bool :=
  c == ' ' || c == '\t' || c == '\n' || c == '\r' || c == '\x0b' || c == '\x0c'

/-- Python `str.strip()`: drop whitespace from both ends. -/
def pyStrip (l : List Char) : List Char :=
  ((l.dropWhile pyIsSpace).reverse.dropWhile pyIsSpace).reverse

/-- Python `text.split('\n')`. -/
def splitNL : List Char → List (List Char)
  | [] => [[]]
  | c :: rest =>
    if c = '\n' then [] :: splitNL rest
    else
      match splitNL rest with
      | [] => [[c]]
      | l :: ls => (c :: l) :: ls

/-- Substring test: Python's `needle in hay`. -/
def hasSub (needle : List Char) : List Char → Bool
  | [] => needle.isEmpty
  | c :: rest => needle.isPrefixOf (c :: rest) || hasSub needle rest

/-- Python `int(s)` on a string of decimal digits (the page captures are
matched by `\d+`, so `int` never raises here). -/
def digitsToNat (l : List Char) : Nat :=
  l.foldl (fun a c => a * 10 + (c.toNat - '0'.toNat)) 0

/-- Python `f"{n:03d}"`: decimal, left-padded with zeros to width 3. -/
def pad3 (n : Nat) : String :=
  let s := toString n
  if s.length < 3 then String.mk (List.replicate (3 - s.length) '0') ++ s else s

/-! ### Regular-expression engine

The five patterns in `toc_patterns` use only: single-character classes
(`.`, `\d`, `\s`, `[:\s]`, literal characters), literal words, greedy and
lazy repetition, `?`, capture groups and `$`.  `reRun` returns the list of
all ways a regex can match a prefix of the input, in Python's backtracking
priority order (so the head of the list is the match `re` would pick), each
with its suffix left over and its captured groups.  Repetition is fuelled;
each iteration of a starred body must consume at least one character
(exactly the cases that terminate in Python's engine), so fuel
`length + 1` is always enough.  Everything is structural recursion, hence
kernel-reducible. -/

inductive RE where
  | cls (p : Char → Bool)
  | lit (w : List Char)
  | seq (a b : RE)
  | grp (n : Nat) (r : RE)
  | optG (r : RE)
  | starG (r : RE)
  | starL (r : RE)
  | eol
deriving Inhabited

/-- Matching results: leftover suffix plus captured groups, ordered by
backtracking priority. -/
abbrev REResults := List (List Char × List (Nat × List Char))

/-- One fuel level of the matcher; `lower` handles the recursive star at
the next-lower fuel (a star iteration always consumes ≥ 1 character). -/
def reRunStep (lower : RE → List Char → REResults) : RE → List Char → REResults
  | .cls _, [] => []
  | .cls p, c :: rest => if p c then [(rest, [])] else []
  | .lit w, s => if w.isPrefixOf s then [(s.drop w.length, [])] else []
  | .seq a b, s =>
    (reRunStep lower a s).flatMap fun pr =>
      (reRunStep lower b pr.1).map fun pr2 => (pr2.1, pr.2 ++ pr2.2)
  | .grp n r, s =>
    (reRunStep lower r s).map fun pr => (pr.1, pr.2 ++ [(n, s.take (s.length - pr.1.length))])
  | .optG r, s => reRunStep lower r s ++ [(s, [])]
  | .starG r, s =>
    (((reRunStep lower r s).filter fun pr => pr.1.length < s.length).flatMap fun pr =>
      (lower (.starG r) pr.1).map fun pr2 => (pr2.1, pr.2 ++ pr2.2)) ++ [(s, [])]
  | .starL r, s =>
    (s, []) :: (((reRunStep lower r s).filter fun pr => pr.1.length < s.length).flatMap fun pr =>
      (lower (.starL r) pr.1).map fun pr2 => (pr2.1, pr.2 ++ pr2.2))
  | .eol, s => if s.isEmpty then [([], [])] else []

def reRun : Nat → RE → List Char → REResults
  | 0, _, _ => []
  | fuel + 1, r, s => reRunStep (reRun fuel) r s

/-- Python `re.search`: try each start position left to right; at the first
position with a match, return the priority-first match's groups. -/
def reSearch (r : RE) : List Char → Option (List (Nat × List Char))
  | [] =>
    match (reRun 1 r []).head? with
    | some pr => some pr.2
    | none => none
  | c :: rest =>
    match (reRun ((c :: rest).length + 1) r (c :: rest)).head? with
    | some pr => some pr.2
    | none => reSearch r rest

/-- Number of capture groups of a pattern — Python's `len(match.groups())`
(every group in these patterns participates whenever the pattern matches). -/
def numGroups : RE → Nat
  | .cls _ => 0
  | .lit _ => 0
  | .seq a b => numGroups a + numGroups b
  | .grp _ r => numGroups r + 1
  | .optG r => numGroups r
  | .starG r => numGroups r
  | .starL r => numGroups r
  | .eol => 0

/-- `match.group(n)` from the collected captures. -/
def groupVal (gs : List (Nat × List Char)) (n : Nat) : Option (List Char) :=
  match gs.filter (fun g => g.1 == n) with
  | [] => none
  | g :: _ => some g.2

/-! ### The five TOC patterns (source lines 24-30) -/

/-- `.` (Python: any character except newline). -/
def reDot : RE := .cls (fun c => c ≠ '\n')

/-- `\d` (decimal digit; the inputs are ASCII). -/
def reDigit : RE := .cls Char.isDigit

/-- `\s`. -/
def reSpace : RE := .cls pyIsSpace

/-- Greedy `+`. -/
def plusG (r : RE) : RE := .seq r (.starG r)

/-- Lazy `+?`. -/
def plusL (r : RE) : RE := .seq r (.starL r)

/-- A single literal character. -/
def litC (c : Char) : RE := .cls (fun x => x = c)

/-- `(.+?)\s+\.{2,}\s*(\d+)` — title, dot leader, page. -/
def pat1 : RE :=
  .seq (.grp 1 (plusL reDot)) (.seq (plusG reSpace)
    (.seq (litC '.') (.seq (litC '.') (.seq (.starG (litC '.'))
      (.seq (.starG reSpace) (.grp 2 (plusG reDigit)))))))

/-- `(.+?)\s+(\d+)$` — title, trailing page at end of line. -/
def pat2 : RE :=
  .seq (.grp 1 (plusL reDot)) (.seq (plusG reSpace) (.seq (.grp 2 (plusG reDigit)) .eol))

/-- `(\d+\.?\d*)\s+(.+?)\s+(\d+)` — leading number, title, page. -/
def pat3 : RE :=
  .seq (.grp 1 (.seq (plusG reDigit) (.seq (.optG (litC '.')) (.starG reDigit))))
    (.seq (plusG reSpace) (.seq (.grp 2 (plusL reDot)) (.seq (plusG reSpace) (.grp 3 (plusG reDigit)))))

/-- `Chapter\s+(\d+)[:\s]+(.+?)\s+(\d+)`. -/
def pat4 : RE :=
  .seq (.lit "Chapter".data) (.seq (plusG reSpace)
    (.seq (.grp 1 (plusG reDigit)) (.seq (plusG (.cls (fun c => c == ':' || pyIsSpace c)))
      (.seq (.grp 2 (plusL reDot)) (.seq (plusG reSpace) (.grp 3 (plusG reDigit)))))))

/-- `(\d+\.\d+)\s+(.+?)\s+(\d+)`. -/
def pat5 : RE :=
  .seq (.grp 1 (.seq (plusG reDigit) (.seq (litC '.') (plusG reDigit))))
    (.seq (plusG reSpace) (.seq (.grp 2 (plusL reDot)) (.seq (plusG reSpace) (.grp 3 (plusG reDigit)))))

/-- `self.toc_patterns` (source lines 24-30), in priority order. -/
def toc_patterns : List RE := [pat1, pat2, pat3, pat4, pat5]

/-- `self.toc_indicators` (source line 31). -/
def toc_indicators : List String := ["table of contents", "contents", "index", "chapter"]

/-! ### TOC pattern matcher (source lines 56-78)

One pattern applied to one line: skip the pattern (fall through to the
next one) when there is no match, and also when the matched page number is
outside `[1, 10000]` (the `int(...)` of a `\d+` capture never raises, so
the `except ValueError: continue` branches are dead). -/

def tryPattern (p : RE) (line : List Char) : Option (String × Nat) :=
  match reSearch p line with
  | none => none
  | some gs =>
    if numGroups p = 2 then
      match groupVal gs 1, groupVal gs 2 with
      | some title, some page =>
        let page_num := digitsToNat page
        if 1 ≤ page_num ∧ page_num ≤ 10000 then some (String.mk (pyStrip title), page_num)
        else none
      | _, _ => none
    else if numGroups p = 3 then
      match groupVal gs 1, groupVal gs 2, groupVal gs 3 with
      | some num, some title, some page =>
        let page_num := digitsToNat page
        -- f"{num} {title}".strip()
        if 1 ≤ page_num ∧ page_num ≤ 10000 then
          some (String.mk (pyStrip (num ++ ' ' :: title)), page_num)
        else none
      | _, _, _ => none
    else none

/-- The inner `for pattern in self.toc_patterns` loop: first accepted
candidate wins (`break`); a rejected or unmatched pattern falls through to
the next pattern. -/
def extractLine : List RE → List Char → Option (String × Nat)
  | [], _ => none
  | p :: ps, line =>
    match tryPattern p line with
    | some c => some c
    | none => extractLine ps line

/-- De-duplication with a `seen` set, keeping first occurrences in scan
order (source lines 81-86). -/
def dedupeAux : List (String × Nat) → List (String × Nat) → List (String × Nat)
  | _, [] => []
  | seen, e :: rest =>
    if seen.contains e then dedupeAux seen rest else e :: dedupeAux (e :: seen) rest

def dedupe (l : List (String × Nat)) : List (String × Nat) := dedupeAux [] l

/-- Stable insertion into a list sorted ascending by page. -/
def insertByPage (e : String × Nat) : List (String × Nat) → List (String × Nat)
  | [] => [e]
  | f :: rest => if e.2 ≤ f.2 then e :: f :: rest else f :: insertByPage e rest

/-- Python's stable `sorted(..., key=lambda x: x[1])`. -/
def sortByPage : List (String × Nat) → List (String × Nat)
  | [] => []
  | x :: xs => insertByPage x (sortByPage xs)

/-- `extract_toc_from_text` (source lines 38-88): per stripped line of at
least 5 characters, at most one candidate; then de-duplicate and sort
(stably) by page number. -/
def extract_toc_from_text (text : List Char) : List (String × Nat) :=
  sortByPage (dedupe ((splitNL text).filterMap fun l0 =>
    let line := pyStrip l0
    if line.length < 5 then none else extractLine toc_patterns line))

/-! ### TOC locator (source lines 90-122)

A page of the source PDF is modelled by its best-effort extracted text:
`some t` on success, `none` when `extract_text` raises (in which case the
page contributes nothing to the accumulated blob, not even its marker). -/

def pageBlob (i : Nat) : Option String → List Char
  | some t => "\n--- Page ".data ++ (toString (i + 1)).data ++ " ---\n".data ++ t.data ++ ['\n']
  | none => []

/-- `extract_toc_from_pdf` (source lines 90-122). -/
def extract_toc_from_pdf (pages : List (Option String)) (max_pages : Nat := 25) :
    List (String × Nat) :=
  let search_pages := min max_pages pages.length
  let toc_text := ((List.range search_pages).map fun i => pageBlob i (pages.getD i none)).flatten
  let toc_found := toc_indicators.any fun ind => hasSub ind.data (toc_text.map Char.toLower)
  if toc_found then extract_toc_from_text toc_text else []

/-! ### Filename sanitizer (source lines 124-143) -/

/-- The characters replaced by `re.sub(r'[<>:"/\\|?*]', '_', title)`. -/
def illegalChar (c : Char) : Bool :=
  c == '<' || c == '>' || c == ':' || c == '"' || c == '/' || c == '\\' ||
  c == '|' || c == '?' || c == '*'

/-- `re.sub(r'\s+', ' ', s)`: each maximal whitespace run becomes one
space.  The flag records whether the previous character was whitespace. -/
def collapseWS : Bool → List Char → List Char
  | _, [] => []
  | prevWS, c :: rest =>
    if pyIsSpace c then
      if prevWS then collapseWS true rest else ' ' :: collapseWS true rest
    else c :: collapseWS false rest

/-- Python `s.replace('..', '.')`: one left-to-right pass over
non-overlapping occurrences (so a run of 2k dots becomes k dots — it does
NOT iterate to a fixed point). -/
def replaceDD : List Char → List Char
  | '.' :: '.' :: rest => '.' :: replaceDD rest
  | c :: rest => c :: replaceDD rest
  | [] => []

/-- Python `s.rsplit(' ', 1)[0]`: everything before the last space, or the
whole string if it has no space. -/
def rsplitLast (l : List Char) : List Char :=
  match l.reverse.dropWhile (fun c => c ≠ ' ') with
  | [] => l
  | _ :: beforeRev => beforeRev.reverse

/-- `sanitize_filename` (source lines 124-143), on the character list. -/
def sanitizeCore (title : List Char) (max_length : Nat) : List Char :=
  let s1 := title.map fun c => if illegalChar c then '_' else c
  let s2 := pyStrip (collapseWS false s1)
  let s3 := replaceDD s2
  if max_length < s3.length then rsplitLast (s3.take max_length) else s3

/-- `sanitize_filename` (source lines 124-143). -/
def sanitize_filename (title : String) (max_length : Nat := 50) : String :=
  String.mk (sanitizeCore title.data max_length)

/-! ### Chunk planner, TOC-driven (source lines 196-248)

`chapterRangesAux total i entries` is the loop
`for i, (chapter_title, start_page) in enumerate(toc_entries)` starting at
index `i`.  Python computes `start_page_idx = max(0, start_page - 1)` and
`end_page = toc_entries[i+1][1] - 1` over signed ints; with pages in `Nat`,
truncated subtraction already equals `max(0, · - 1)`, and in the one case
where Python's value would be negative (`page = 0`, impossible for matcher
output anyway) both versions drop the range, so `Nat` arithmetic is an
exact model.  An emitted item is `(i, title, start_page_idx, end_page_idx)`
where `i` is the 0-based entry index used for numbering. -/

/-- `end_page` of the current entry: the page of the next entry minus one,
or the total page count when no entry follows (source lines 198-201). -/
def nextBoundary (total : Nat) : List (String × Nat) → Nat
  | [] => total                 -- end of book
  | (_, p2) :: _ => p2 - 1      -- start of next chapter

def chapterRangesAux (total : Nat) : Nat → List (String × Nat) → List (Nat × String × Nat × Nat)
  | _, [] => []
  | i, (title, page) :: rest =>
    let start_page_idx := page - 1          -- max(0, start_page - 1)
    let end_page_idx := min total (nextBoundary total rest)
    if start_page_idx ≥ end_page_idx then chapterRangesAux total (i + 1) rest
    else (i, title, start_page_idx, end_page_idx) :: chapterRangesAux total (i + 1) rest

def chapterRanges (entries : List (String × Nat)) (total : Nat) : List (Nat × String × Nat × Nat) :=
  chapterRangesAux total 0 entries

/-- Chapter-mode output filename `f"{i + 1:03d}_{safe_title}.pdf"`
(source line 232), where `i` is the 0-based entry index. -/
def chapterFilename (i : Nat) (title : String) : String :=
  pad3 (i + 1) ++ "_" ++ sanitize_filename title 50 ++ ".pdf"

/-- Chapter-mode `/Subject` metadata `f"Chapter {i + 1}: {chapter_title}"`
(source line 226). -/
def chapterSubject (i : Nat) (title : String) : String :=
  "Chapter " ++ toString (i + 1) ++ ": " ++ title

/-! ### Chunk planner, fixed-size (source lines 285-300) -/

/-- The `(start_page, end_page)` pairs of `split_by_pages`:
`num_chunks = (total_pages + chunk_size - 1) // chunk_size` chunks, chunk
`k` covering `[k*size, min(k*size + size, total))`.  Exact for
`chunk_size ≥ 1`; at `chunk_size = 0` Python's `//` raises
`ZeroDivisionError` instead of producing a value, so the execution layer
(`runPages`) routes that case to its error branch and never consults this
function there. -/
def pagesRanges (total chunk_size : Nat) : List (Nat × Nat) :=
  (List.range ((total + chunk_size - 1) / chunk_size)).map fun k =>
    (k * chunk_size, min (k * chunk_size + chunk_size) total)

/-- Page-mode output filename `f"{base_name}_chunk_{chunk_num + 1:03d}.pdf"`
(source line 315). -/
def pagesFilename (base : String) (k : Nat) : String :=
  base ++ "_chunk_" ++ pad3 (k + 1) ++ ".pdf"

/-! ### Output directory derivation

Paths are modelled as strings; `Path a / b` is modelled as `a ++ "/" ++ b`,
and an input `input_path` is given by its `parent` and `stem`. -/

/-- Source lines 162-165: chapter mode always appends the
`<stem>_chapters` subfolder, to the input's parent if no output directory
was given. -/
def chapters_output_dir (output_dir : Option String) (parent stem : String) : String :=
  match output_dir with
  | none => parent ++ "/" ++ stem ++ "_chapters"
  | some d => d ++ "/" ++ stem ++ "_chapters"

/-- Source lines 269-272: page mode appends `<stem>_pages` only when no
output directory was given; a caller-given directory is used unchanged. -/
def pages_output_dir (output_dir : Option String) (parent stem : String) : String :=
  match output_dir with
  | none => parent ++ "/" ++ stem ++ "_pages"
  | some d => d

/-! ### Orchestration (pure planning layer)

The plan of a run records the directory written to and, per chunk, the
output filename and page range — everything the claims observe about the
writing loop short of actual I/O. -/

structure PagesPlan where
  dir : String
  chunks : List (String × Nat × Nat)
deriving DecidableEq

/-- `split_by_pages` (source lines 251-331), planning layer. -/
def split_by_pages_plan (parent stem : String) (output_dir : Option String)
    (total chunk_size : Nat) : PagesPlan :=
  { dir := pages_output_dir output_dir parent stem
    chunks := (pagesRanges total chunk_size).enum.map fun kc =>
      (pagesFilename stem kc.1, kc.2) }

inductive ChapterPlan where
  | fallback (p : PagesPlan)
  | chapters (dir : String) (items : List (Nat × String × Nat × Nat))
deriving DecidableEq

/-- The directory a chapter-mode run writes into. -/
def ChapterPlan.dir : ChapterPlan → String
  | .fallback p => p.dir
  | .chapters d _ => d

/-- `split_by_chapters` (source lines 145-248), planning layer.  The PDF is
modelled by its per-page extracted text; `total_pages` is the page count.
When no TOC entry is found the function calls
`split_by_pages(input_path, output_dir, 99)` where `output_dir` is the
already-derived `<stem>_chapters` path (source lines 181-183). -/
def split_by_chapters_plan (parent stem : String) (output_dir : Option String)
    (pdfPages : List (Option String)) : ChapterPlan :=
  let dir := chapters_output_dir output_dir parent stem
  let total := pdfPages.length
  let toc_entries := extract_toc_from_pdf pdfPages 25
  if toc_entries.isEmpty then
    .fallback (split_by_pages_plan parent stem (some dir) total 99)
  else
    .chapters dir (chapterRanges toc_entries total)

/-! ### Orchestration (execution layer, source lines 145-331 and `main`)

I/O outcomes are oracles: whether the input path exists, whether `PdfReader`
can open it (this covers both the open at source line 171 and the re-open
inside `extract_toc_from_pdf` at line 101), and whether writing the k-th
attempted chunk succeeds (the `try: open/write` at lines 236-246 and
319-328; a failed write is logged and skipped, the loop continues). -/

structure World where
  inputExists : Bool
  openOk : Bool
  pdfPages : List (Option String)
  writeOk : Nat → Bool

/-- The per-chunk writing loop: chunk `k` contributes its filename exactly
when its write succeeds. -/
def writeLoop (writeOk : Nat → Bool) : Nat → List String → List String
  | _, [] => []
  | k, f :: rest =>
    if writeOk k then f :: writeLoop writeOk (k + 1) rest
    else writeLoop writeOk (k + 1) rest

/-- `split_by_pages` execution: `FileNotFoundError` when the input is
missing (line 266), a fatal error when the PDF cannot be opened (lines
277-282), a fatal `ZeroDivisionError` from
`(total_pages + chunk_size - 1) // chunk_size` when the chunk size is 0
(line 285, uncaught inside `split_by_pages`, so it propagates to `main`),
otherwise the list of files actually created. -/
def runPages (w : World) (parent stem : String) (output_dir : Option String)
    (chunk_size : Nat) : Except String (List String) :=
  if !w.inputExists then .error "Input file not found"
  else if !w.openOk then .error "Error reading PDF"
  else if chunk_size = 0 then .error "ZeroDivisionError"
  else
    .ok (writeLoop w.writeOk 0
      ((split_by_pages_plan parent stem output_dir w.pdfPages.length chunk_size).chunks.map
        Prod.fst))

/-- `split_by_chapters` execution. -/
def runChapters (w : World) (parent stem : String) (output_dir : Option String) :
    Except String (List String) :=
  if !w.inputExists then .error "Input file not found"
  else if !w.openOk then .error "Error reading PDF"
  else
    match split_by_chapters_plan parent stem output_dir w.pdfPages with
    | .fallback p => .ok (writeLoop w.writeOk 0 (p.chunks.map Prod.fst))
    | .chapters _ items =>
      .ok (writeLoop w.writeOk 0 (items.map fun it => chapterFilename it.1 it.2.1))

/-- `main` (source lines 334-384): `return 0` after a completed run (the
reported success count is the length of the returned list), `return 1` on
`FileNotFoundError` or any other exception.  The result is
`(exit code, reported chunk count)`. -/
def mainRun (chaptersMode : Bool) (w : World) (parent stem : String)
    (output_dir : Option String) (size : Nat) : Nat × Nat :=
  match (if chaptersMode then runChapters w parent stem output_dir
         else runPages w parent stem output_dir size) with
  | .ok chunks => (0, chunks.length)
  | .error _ => (1, 0)

/-- Number of chunks a completed run attempts to write. -/
def plannedChunks (chaptersMode : Bool) (w : World) (parent stem : String)
    (output_dir : Option String) (size : Nat) : Nat :=
  if chaptersMode then
    match split_by_chapters_plan parent stem output_dir w.pdfPages with
    | .fallback p => p.chunks.length
    | .chapters _ items => items.length
  else (split_by_pages_plan parent stem output_dir w.pdfPages.length size).chunks.length

/-! ### Spec-side definition for the TOC-driven planner (claim C1)

Written from the specification's words, to be compared with
`chapterRanges`: for entry `i` the end boundary is `entries[i+1].page - 1`
if a next entry exists, else the total page count; the emitted 0-based
end-exclusive range is `[max(0, page - 1), min(totalPages, end))`, and a
range with `start ≥ end` is dropped. -/

def entryCandidate (entries : List (String × Nat)) (total i : Nat) :
    Option (Nat × String × Nat × Nat) :=
  match entries.get? i with
  | none => none
  | some (t, p) =>
    let endRaw : Nat :=
      match entries.get? (i + 1) with
      | some e2 => e2.2 - 1
      | none => total
    let s := max 0 (p - 1)
    let e := min total endRaw
    if s < e then some (i, t, s, e) else none

def chapterRangesSpec (entries : List (String × Nat)) (total : Nat) :
    List (Nat × String × Nat × Nat) :=
  (List.range entries.length).filterMap (entryCandidate entries total)

/-! ## Helper lemmas -/

theorem chapterRangesAux_shift (total : Nat) :
    ∀ (l : List (String × Nat)) (i : Nat),
      chapterRangesAux total i l = (chapterRangesAux total 0 l).map fun r => (r.1 + i, r.2)
  | [], _ => by simp [chapterRangesAux]
  | (t, p) :: rest, i => by
    simp only [chapterRangesAux]
    by_cases h : p - 1 ≥ min total (nextBoundary total rest)
    · simp only [if_pos h, chapterRangesAux_shift total rest (i + 1),
        chapterRangesAux_shift total rest 1, List.map_map]
      congr 1
      funext r
      simp [Nat.add_assoc, Nat.add_comm 1 i]
    · simp only [if_neg h, chapterRangesAux_shift total rest (i + 1),
        chapterRangesAux_shift total rest 1, List.map_map, List.map_cons]
      congr 1
      · simp
      · congr 1
        funext r
        simp [Nat.add_assoc, Nat.add_comm 1 i]

theorem entryCandidate_cons_succ (x : String × Nat) (l : List (String × Nat)) (total j : Nat) :
    entryCandidate (x :: l) total (j + 1) =
      (entryCandidate l total j).map fun r => (r.1 + 1, r.2) := by
  simp only [entryCandidate, List.get?_cons_succ]
  cases hget : l.get? j with
  | none => rfl
  | some tp =>
    obtain ⟨t, p⟩ := tp
    cases hget2 : l.get? (j + 1) with
    | none => simp only [Option.map]; split <;> simp
    | some e2 => simp only [Option.map]; split <;> simp

theorem entryCandidate_cons_zero (t : String) (p : Nat) (l : List (String × Nat)) (total : Nat) :
    entryCandidate ((t, p) :: l) total 0 =
      if p - 1 < min total (nextBoundary total l) then
        some (0, t, p - 1, min total (nextBoundary total l))
      else none := by
  simp only [entryCandidate, List.get?_cons_succ]
  cases l <;> simp [nextBoundary]

theorem chapterRangesSpec_cons (x : String × Nat) (l : List (String × Nat)) (total : Nat) :
    chapterRangesSpec (x :: l) total =
      (match entryCandidate (x :: l) total 0 with | some r => [r] | none => []) ++
        (chapterRangesSpec l total).map (fun r => (r.1 + 1, r.2)) := by
  unfold chapterRangesSpec
  rw [List.length_cons, List.range_succ_eq_map, List.filterMap_cons, List.filterMap_map]
  have hfun : (entryCandidate (x :: l) total ∘ Nat.succ) =
      fun j => (entryCandidate l total j).map fun r => (r.1 + 1, r.2) :=
    funext fun j => entryCandidate_cons_succ x l total j
  rw [hfun, ← List.map_filterMap]
  cases h0 : entryCandidate (x :: l) total 0 <;> simp

theorem chapterRanges_cons (x : String × Nat) (l : List (String × Nat)) (total : Nat) :
    chapterRanges (x :: l) total =
      (match entryCandidate (x :: l) total 0 with | some r => [r] | none => []) ++
        (chapterRanges l total).map (fun r => (r.1 + 1, r.2)) := by
  obtain ⟨t, p⟩ := x
  show chapterRangesAux total 0 ((t, p) :: l) = _
  simp only [chapterRangesAux, entryCandidate_cons_zero]
  rw [chapterRangesAux_shift total l 1]
  by_cases h : p - 1 ≥ min total (nextBoundary total l)
  · rw [if_pos h, if_neg (by omega)]
    rfl
  · rw [if_neg h, if_pos (by omega)]
    rfl

/-- The recursive planner agrees with the indexed per-entry description. -/
theorem chapterRanges_eq_spec :
    ∀ (l : List (String × Nat)) (total : Nat), chapterRanges l total = chapterRangesSpec l total
  | [], _ => rfl
  | x :: l, total => by
    rw [chapterRanges_cons, chapterRangesSpec_cons, chapterRanges_eq_spec l total]

/-! ## Claim C1 -/

/-- C1 — TOC-driven planning: for every TOC entry list and total page
count, the planner emits for entry `i` the 0-based end-exclusive range
`[max(0, entries[i].page - 1), min(totalPages, e))` with
`e = entries[i+1].page - 1` when a next entry exists and `e = totalPages`
otherwise, silently dropping ranges with `start ≥ end`
(`chapterRangesSpec` is exactly that description); and the entries
`[("Intro",1),("Ch1",10),("Ch2",25)]` with 30 total pages yield exactly
the ranges `[(0,9),(9,24),(24,30)]`. -/
theorem toc_planning_matches_spec :
    (∀ (entries : List (String × Nat)) (total : Nat),
      chapterRanges entries total = chapterRangesSpec entries total) ∧
    (chapterRanges [("Intro", 1), ("Ch1", 10), ("Ch2", 25)] 30).map
        (fun r => (r.2.2.1, r.2.2.2)) = [(0, 9), (9, 24), (24, 30)] :=
  ⟨chapterRanges_eq_spec, by decide⟩

/-! ## Claim C6 (corrected): chunk numbering under dropped ranges -/

theorem map_fst_filterMap_eq_filter {β : Type} (f : Nat → Option β) (g : β → Nat)
    (h : ∀ a b, f a = some b → g b = a) :
    ∀ l : List Nat, (l.filterMap f).map g = l.filter fun a => (f a).isSome
  | [] => rfl
  | a :: l => by
    rw [List.filterMap_cons, List.filter_cons]
    cases hfa : f a with
    | none => simp [hfa, map_fst_filterMap_eq_filter f g h l]
    | some b => simp [hfa, h a b hfa, map_fst_filterMap_eq_filter f g h l]

theorem entryCandidate_fst (entries : List (String × Nat)) (total i : Nat)
    (r : Nat × String × Nat × Nat) (h : entryCandidate entries total i = some r) : r.1 = i := by
  unfold entryCandidate at h
  cases hget : entries.get? i with
  | none => rw [hget] at h; exact absurd h (by simp)
  | some tp =>
    obtain ⟨t, p⟩ := tp
    rw [hget] at h
    simp only at h
    split at h
    · cases h; rfl
    · exact absurd h (by simp)

/-- C6 counterexample: with entries `[("A",1),("B",1)]` and 5 total pages
the first range is dropped and the single emitted chunk carries sequence
number 2 — filename `002_B.pdf`, subject `Chapter 2: B` — not a gap-free
numbering starting at 1. -/
theorem chapter_numbering_counterexample :
    chapterRanges [("A", 1), ("B", 1)] 5 = [(1, "B", 0, 5)] ∧
    (chapterRanges [("A", 1), ("B", 1)] 5).map (fun r => chapterFilename r.1 r.2.1) =
      ["002_B.pdf"] ∧
    (chapterRanges [("A", 1), ("B", 1)] 5).map (fun r => chapterSubject r.1 r.2.1) =
      ["Chapter 2: B"] ∧
    (chapterRanges [("A", 1), ("B", 1)] 5).map (fun r => r.1 + 1) ≠ [1] := by
  refine ⟨by decide, by decide, by decide, by decide⟩

/-- C6 amended: the sequence number attached to each emitted chunk (used
as `i + 1` in the output filename and Subject metadata) is the 0-based
index of its originating entry in the TOC entry list, so the emitted
numbers are exactly the indices of the non-degenerate entries, and
dropped ranges leave gaps in the numbering. -/
theorem chapter_numbering_amended (entries : List (String × Nat)) (total : Nat) :
    (chapterRanges entries total).map (fun r => r.1) =
      (List.range entries.length).filter fun i => (entryCandidate entries total i).isSome := by
  rw [chapterRanges_eq_spec]
  exact map_fst_filterMap_eq_filter (entryCandidate entries total) _
    (entryCandidate_fst entries total) (List.range entries.length)

/-! ## Claim C5: range invariants -/

theorem chapterRangesAux_bounds (total : Nat) :
    ∀ (l : List (String × Nat)) (i j : Nat) (t : String) (s e : Nat),
      (j, t, s, e) ∈ chapterRangesAux total i l → s < e ∧ e ≤ total
  | [], _, _, _, _, _ => fun h => absurd h (List.not_mem_nil _)
  | (t0, p) :: rest, i, j, t, s, e => by
    intro hmem
    simp only [chapterRangesAux] at hmem
    by_cases h : p - 1 ≥ min total (nextBoundary total rest)
    · rw [if_pos h] at hmem
      exact chapterRangesAux_bounds total rest (i + 1) j t s e hmem
    · rw [if_neg h] at hmem
      rcases List.mem_cons.mp hmem with heq | hmem2
      · simp only [Prod.mk.injEq] at heq
        obtain ⟨-, -, hs, he⟩ := heq
        subst hs; subst he
        omega
      · exact chapterRangesAux_bounds total rest (i + 1) j t s e hmem2

theorem chain_le_of_mem :
    ∀ (l : List (String × Nat)) (x : String × Nat),
      List.Chain' (fun a b : String × Nat => a.2 ≤ b.2) (x :: l) → ∀ y ∈ l, x.2 ≤ y.2
  | [], _, _, y, hy => absurd hy (List.not_mem_nil y)
  | z :: l2, x, h, y, hy => by
    rcases List.chain'_cons.mp h with ⟨hxz, hz⟩
    rcases List.mem_cons.mp hy with rfl | hy2
    · exact hxz
    · exact le_trans hxz (chain_le_of_mem l2 z hz y hy2)

theorem chapterRangesAux_nil_of_big (total : Nat) :
    ∀ (l : List (String × Nat)) (i : Nat), (∀ y ∈ l, total ≤ y.2 - 1) →
      chapterRangesAux total i l = []
  | [], _, _ => rfl
  | (t, p) :: rest, i, hbig => by
    have hp : total ≤ p - 1 := hbig (t, p) (List.mem_cons_self _ _)
    have hge : p - 1 ≥ min total (nextBoundary total rest) :=
      le_trans (Nat.min_le_left _ _) hp
    simp only [chapterRangesAux, if_pos hge]
    exact chapterRangesAux_nil_of_big total rest (i + 1)
      (fun y hy => hbig y (List.mem_cons_of_mem _ hy))

theorem chapterRangesAux_chain (total : Nat) :
    ∀ (l : List (String × Nat)) (i : Nat),
      List.Chain' (fun a b : String × Nat => a.2 ≤ b.2) l →
      List.Chain' (fun r r2 : Nat × String × Nat × Nat => r.2.2.2 = r2.2.2.1)
          (chapterRangesAux total i l) ∧
        ∀ r ∈ (chapterRangesAux total i l).head?, ∀ x ∈ l.head?, r.2.2.1 = x.2 - 1
  | [], i, _ => by simp [chapterRangesAux]
  | (t, p) :: rest, i, hsorted => by
    have hrest : List.Chain' (fun a b : String × Nat => a.2 ≤ b.2) rest := hsorted.tail
    obtain ⟨ihchain, ihhead⟩ := chapterRangesAux_chain total rest (i + 1) hrest
    simp only [chapterRangesAux]
    by_cases h : p - 1 ≥ min total (nextBoundary total rest)
    · rw [if_pos h]
      refine ⟨ihchain, ?_⟩
      intro r hr x hx
      simp only [List.head?_cons, Option.mem_def, Option.some.injEq] at hx
      subst hx
      match rest, hrest, ihhead, hr with
      | [], _, _, hr => simp [chapterRangesAux] at hr
      | y :: rest2, hrest, ihhead, hr =>
        by_cases hcl : y.2 - 1 ≤ total
        · have h1 : r.2.2.1 = y.2 - 1 := ihhead r hr y (by simp)
          have hple : p ≤ y.2 := (List.chain'_cons.mp hsorted).1
          simp only [nextBoundary] at h
          omega
        · have hnil : chapterRangesAux total (i + 1) (y :: rest2) = [] := by
            apply chapterRangesAux_nil_of_big
            intro z hz
            rcases List.mem_cons.mp hz with rfl | hz2
            · omega
            · have := chain_le_of_mem rest2 y hrest z hz2
              omega
          rw [hnil] at hr
          simp at hr
    · rw [if_neg h]
      constructor
      · rw [List.chain'_cons']
        refine ⟨?_, ihchain⟩
        intro r2 hr2
        show min total (nextBoundary total rest) = r2.2.2.1
        match rest, hrest, ihhead, hr2 with
        | [], _, _, hr2 => simp [chapterRangesAux] at hr2
        | y :: rest2, hrest, ihhead, hr2 =>
          by_cases hcl : y.2 - 1 ≤ total
          · have h1 : r2.2.2.1 = y.2 - 1 := ihhead r2 hr2 y (by simp)
            simp only [nextBoundary]
            omega
          · have hnil : chapterRangesAux total (i + 1) (y :: rest2) = [] := by
              apply chapterRangesAux_nil_of_big
              intro z hz
              rcases List.mem_cons.mp hz with rfl | hz2
              · omega
              · have := chain_le_of_mem rest2 y hrest z hz2
                omega
            rw [hnil] at hr2
            simp at hr2
      · intro r hr x hx
        simp only [List.head?_cons, Option.mem_def, Option.some.injEq] at hr hx
        subst hr; subst hx
        rfl

theorem pagesRanges_mem (total S s e : Nat) (hS : 1 ≤ S) (hmem : (s, e) ∈ pagesRanges total S) :
    ∃ k, k < (total + S - 1) / S ∧ s = k * S ∧ e = min (k * S + S) total ∧ k * S < total := by
  unfold pagesRanges at hmem
  rcases List.mem_map.mp hmem with ⟨k, hk, heq⟩
  rw [List.mem_range] at hk
  simp only [Prod.mk.injEq] at heq
  obtain ⟨hs, he⟩ := heq
  have hk2 : (k + 1) * S ≤ total + S - 1 :=
    (Nat.le_div_iff_mul_le (by omega)).mp hk
  rw [Nat.succ_mul] at hk2
  exact ⟨k, hk, hs.symm, he.symm, by omega⟩

/-- C5 — ChunkRange invariants: every emitted range satisfies
`start < end` and `end ≤ total`; TOC-driven ranges (for a page-sorted
entry list) are contiguous, each emitted range's end being the next
emitted range's start (hence pairwise non-overlapping); and fixed-size
ranges all span exactly `S` pages except possibly the last. -/
theorem chunk_range_invariants (entries : List (String × Nat)) (total S : Nat)
    (hsorted : List.Chain' (fun a b : String × Nat => a.2 ≤ b.2) entries) (hS : 1 ≤ S) :
    (∀ j t s e, (j, t, s, e) ∈ chapterRanges entries total → s < e ∧ e ≤ total) ∧
    List.Chain' (fun r r2 : Nat × String × Nat × Nat => r.2.2.2 = r2.2.2.1)
      (chapterRanges entries total) ∧
    (∀ s e, (s, e) ∈ pagesRanges total S → s < e ∧ e ≤ total) ∧
    (∀ k s e, k + 1 < (pagesRanges total S).length →
      (pagesRanges total S).get? k = some (s, e) → e - s = S) := by
  refine ⟨fun j t s e h => chapterRangesAux_bounds total entries 0 j t s e h,
    (chapterRangesAux_chain total entries 0 hsorted).1, ?_, ?_⟩
  · intro s e hmem
    obtain ⟨k, -, hs, he, hlt⟩ := pagesRanges_mem total S s e hS hmem
    omega
  · intro k s e hk hget
    unfold pagesRanges at hk hget
    rw [List.length_map, List.length_range] at hk
    rw [List.get?_map, List.get?_range (by omega)] at hget
    simp only [Option.map_some', Option.some.injEq, Prod.mk.injEq] at hget
    obtain ⟨hs, he⟩ := hget
    have hk2 : (k + 1 + 1) * S ≤ total + S - 1 :=
      (Nat.le_div_iff_mul_le (by omega)).mp hk
    have hmul : (k + 1 + 1) * S = k * S + S + S := by ring
    rw [hmul] at hk2
    omega

/-- Concrete instantiation of `chunk_range_invariants`: the sorted entry
list `[("Intro",1),("Ch1",10),("Ch2",25)]` with 30 pages, and fixed-size
planning with 250 pages handled at `S = 99` elsewhere in the statement. -/
theorem chunk_range_invariants_witness :
    List.Chain' (fun a b : String × Nat => a.2 ≤ b.2) [("Intro", 1), ("Ch1", 10), ("Ch2", 25)] ∧
    1 ≤ 99 ∧
    ((∀ j t s e, (j, t, s, e) ∈ chapterRanges [("Intro", 1), ("Ch1", 10), ("Ch2", 25)] 30 →
        s < e ∧ e ≤ 30) ∧
      List.Chain' (fun r r2 : Nat × String × Nat × Nat => r.2.2.2 = r2.2.2.1)
        (chapterRanges [("Intro", 1), ("Ch1", 10), ("Ch2", 25)] 30) ∧
      (∀ s e, (s, e) ∈ pagesRanges 30 99 → s < e ∧ e ≤ 30) ∧
      (∀ k s e, k + 1 < (pagesRanges 30 99).length →
        (pagesRanges 30 99).get? k = some (s, e) → e - s = 99)) :=
  ⟨List.chain'_cons.mpr ⟨by decide, List.chain'_cons.mpr ⟨by decide, List.chain'_singleton _⟩⟩,
    by decide,
    chunk_range_invariants [("Intro", 1), ("Ch1", 10), ("Ch2", 25)] 30 99
      (List.chain'_cons.mpr ⟨by decide, List.chain'_cons.mpr ⟨by decide, List.chain'_singleton _⟩⟩)
      (by decide)⟩

/-! ## Claim C4: fixed-size planning -/

/-- C4 — fixed-size planning: for `S ≥ 1` the planner emits exactly
`⌈totalPages / S⌉` chunks, chunk `k` spanning
`[k*S, min((k+1)*S, totalPages))`, every chunk non-empty, zero chunks for
an empty document; and 250 pages at `S = 99` give exactly
`(0,99),(99,198),(198,250)`. -/
theorem fixed_size_planning (total S : Nat) (hS : 1 ≤ S) :
    (pagesRanges total S).length = total ⌈/⌉ S ∧
    (∀ k, k < (pagesRanges total S).length →
      (pagesRanges total S).get? k = some (k * S, min ((k + 1) * S) total)) ∧
    (∀ s e, (s, e) ∈ pagesRanges total S → s < e) ∧
    (total = 0 → pagesRanges total S = []) ∧
    pagesRanges 250 99 = [(0, 99), (99, 198), (198, 250)] := by
  refine ⟨?_, ?_, ?_, ?_, by decide⟩
  · rw [Nat.ceilDiv_eq_add_pred_div]
    simp [pagesRanges]
  · intro k hk
    unfold pagesRanges at hk ⊢
    rw [List.length_map, List.length_range] at hk
    rw [List.get?_map, List.get?_range hk]
    simp [Nat.succ_mul]
  · intro s e hmem
    obtain ⟨k, -, hs, he, hlt⟩ := pagesRanges_mem total S s e hS hmem
    omega
  · intro h0
    subst h0
    unfold pagesRanges
    rw [Nat.div_eq_of_lt (by omega)]
    rfl

theorem fixed_size_planning_witness :
    1 ≤ 99 ∧
    ((pagesRanges 250 99).length = 250 ⌈/⌉ 99 ∧
      (∀ k, k < (pagesRanges 250 99).length →
        (pagesRanges 250 99).get? k = some (k * 99, min ((k + 1) * 99) 250)) ∧
      (∀ s e, (s, e) ∈ pagesRanges 250 99 → s < e) ∧
      ((250 : Nat) = 0 → pagesRanges 250 99 = []) ∧
      pagesRanges 250 99 = [(0, 99), (99, 198), (198, 250)]) :=
  ⟨by decide, fixed_size_planning 250 99 (by decide)⟩

/-! ## Claim C3: fallback to fixed-size planning at size 99 -/

/-- C3 — fallback: whenever chapter mode finds zero TOC entries, the plan
is exactly fixed-size planning with chunk size 99 (the default), on the
already-derived chapter output directory, and the run completes
successfully rather than failing. -/
theorem chapters_fallback (parent stem : String) (output_dir : Option String)
    (pdfPages : List (Option String)) (h : extract_toc_from_pdf pdfPages 25 = []) :
    split_by_chapters_plan parent stem output_dir pdfPages =
      .fallback (split_by_pages_plan parent stem
        (some (chapters_output_dir output_dir parent stem)) pdfPages.length 99) ∧
    ∀ w : World, w.pdfPages = pdfPages → w.inputExists = true → w.openOk = true →
      ∃ files, runChapters w parent stem output_dir = .ok files := by
  have hplan : split_by_chapters_plan parent stem output_dir pdfPages =
      .fallback (split_by_pages_plan parent stem
        (some (chapters_output_dir output_dir parent stem)) pdfPages.length 99) := by
    simp [split_by_chapters_plan, h]
  refine ⟨hplan, ?_⟩
  intro w hw h1 h2
  rw [← hw] at hplan
  simp [runChapters, h1, h2, hplan]

theorem chapters_fallback_witness :
    extract_toc_from_pdf [some "just some words"] 25 = [] ∧
    (split_by_chapters_plan "par" "book" (some "out") [some "just some words"] =
      .fallback (split_by_pages_plan "par" "book"
        (some (chapters_output_dir (some "out") "par" "book"))
        [some "just some words"].length 99) ∧
    ∀ w : World, w.pdfPages = [some "just some words"] → w.inputExists = true →
      w.openOk = true →
      ∃ files, runChapters w "par" "book" (some "out") = .ok files) :=
  ⟨by decide, chapters_fallback "par" "book" (some "out") [some "just some words"] (by decide)⟩

/-! ## Claim C10: output location of the fallback -/

/-- C10 — fallback output location: when chapter mode falls back because
no TOC entry was found, the files are written into the chapter-mode
directory (the `<stem>_chapters` path, passed through unchanged by
`split_by_pages`, which never appends `_pages` to a caller-given
directory), under page-style names `<stem>_chunk_NNN.pdf`. -/
theorem fallback_output_location (parent stem : String) (output_dir : Option String)
    (pdfPages : List (Option String)) (h : extract_toc_from_pdf pdfPages 25 = []) :
    (split_by_chapters_plan parent stem output_dir pdfPages).dir =
      chapters_output_dir output_dir parent stem ∧
    split_by_chapters_plan parent stem output_dir pdfPages =
      .fallback
        { dir := chapters_output_dir output_dir parent stem
          chunks := (pagesRanges pdfPages.length 99).enum.map fun kc =>
            (stem ++ "_chunk_" ++ pad3 (kc.1 + 1) ++ ".pdf", kc.2) } := by
  have hplan : split_by_chapters_plan parent stem output_dir pdfPages =
      .fallback (split_by_pages_plan parent stem
        (some (chapters_output_dir output_dir parent stem)) pdfPages.length 99) := by
    simp [split_by_chapters_plan, h]
  rw [hplan]
  exact ⟨rfl, rfl⟩

theorem fallback_output_location_witness :
    extract_toc_from_pdf [some "plain page text"] 25 = [] ∧
    ((split_by_chapters_plan "par" "book" (some "out") [some "plain page text"]).dir =
      chapters_output_dir (some "out") "par" "book" ∧
    split_by_chapters_plan "par" "book" (some "out") [some "plain page text"] =
      .fallback
        { dir := chapters_output_dir (some "out") "par" "book"
          chunks := (pagesRanges [some "plain page text"].length 99).enum.map fun kc =>
            ("book" ++ "_chunk_" ++ pad3 (kc.1 + 1) ++ ".pdf", kc.2) }) :=
  ⟨by decide, fallback_output_location "par" "book" (some "out") [some "plain page text"]
    (by decide)⟩

/-! ## Claim C8 (corrected): output directory derivation -/

/-- C8 counterexample: in page mode a caller-given base output directory
is used unchanged — with base directory `out` and input stem `book` the
run writes into `out`, not into the `out/book_pages` subfolder the claim
requires. -/
theorem output_dir_counterexample :
    pages_output_dir (some "out") "par" "book" = "out" ∧
    (split_by_pages_plan "par" "book" (some "out") 250 99).dir = "out" ∧
    "out" ≠ "out" ++ "/" ++ "book" ++ "_pages" :=
  ⟨rfl, rfl, by decide⟩

/-- C8 amended: chapter mode joins the caller-given base directory with
the `<stem>_chapters` subfolder (in both the TOC and the fallback path),
but page mode uses a caller-given directory as-is; the `<stem>_pages`
subfolder is synthesized only when no output directory is given, next to
the input. -/
theorem output_dir_amended (d parent stem : String) (total S : Nat)
    (pdfPages : List (Option String)) :
    chapters_output_dir (some d) parent stem = d ++ "/" ++ stem ++ "_chapters" ∧
    (split_by_chapters_plan parent stem (some d) pdfPages).dir =
      d ++ "/" ++ stem ++ "_chapters" ∧
    pages_output_dir (some d) parent stem = d ∧
    (split_by_pages_plan parent stem (some d) total S).dir = d ∧
    pages_output_dir none parent stem = parent ++ "/" ++ stem ++ "_pages" ∧
    chapters_output_dir none parent stem = parent ++ "/" ++ stem ++ "_chapters" := by
  refine ⟨rfl, ?_, rfl, rfl, rfl, rfl⟩
  by_cases hE : (extract_toc_from_pdf pdfPages 25).isEmpty
  · simp [split_by_chapters_plan, hE, ChapterPlan.dir, split_by_pages_plan, pages_output_dir,
      chapters_output_dir]
  · simp [split_by_chapters_plan, hE, ChapterPlan.dir, chapters_output_dir]

/-! ## Claim C7 (corrected): dot collapsing in the sanitizer -/

theorem replaceDD_replicate : ∀ n, replaceDD (List.replicate n '.') = List.replicate ((n + 1) / 2) '.'
  | 0 => rfl
  | 1 => rfl
  | n + 2 => by
    show replaceDD ('.' :: '.' :: List.replicate n '.') = _
    rw [show replaceDD ('.' :: '.' :: List.replicate n '.') =
          '.' :: replaceDD (List.replicate n '.') from rfl,
      replaceDD_replicate n]
    have h2 : (n + 2 + 1) / 2 = (n + 1) / 2 + 1 := by omega
    rw [h2]
    rfl

theorem collapseWS_noSpace :
    ∀ (l : List Char) (b : Bool), (∀ c ∈ l, pyIsSpace c = false) → collapseWS b l = l
  | [], _, _ => rfl
  | c :: rest, b, h => by
    have hc : pyIsSpace c = false := h c (List.mem_cons_self _ _)
    simp only [collapseWS, hc, Bool.false_eq_true, if_false]
    rw [collapseWS_noSpace rest false fun x hx => h x (List.mem_cons_of_mem _ hx)]

theorem dropWhile_noSpace (l : List Char) (h : ∀ c ∈ l, pyIsSpace c = false) :
    l.dropWhile pyIsSpace = l := by
  cases l with
  | nil => rfl
  | cons c rest =>
    have hc : pyIsSpace c = false := h c (List.mem_cons_self _ _)
    simp [List.dropWhile_cons, hc]

theorem pyStrip_noSpace (l : List Char) (h : ∀ c ∈ l, pyIsSpace c = false) :
    pyStrip l = l := by
  unfold pyStrip
  rw [dropWhile_noSpace l h,
    dropWhile_noSpace l.reverse fun c hc => h c (List.mem_reverse.mp hc),
    List.reverse_reverse]

theorem hasSub_tail (needle : List Char) (c : Char) (rest : List Char)
    (h : hasSub needle rest = true) : hasSub needle (c :: rest) = true := by
  show (needle.isPrefixOf (c :: rest) || hasSub needle rest) = true
  rw [h, Bool.or_true]

theorem hasSub_dd (l : List Char) : hasSub ['.', '.'] ('.' :: '.' :: l) = true := by
  show (List.isPrefixOf ['.', '.'] ('.' :: '.' :: l) || hasSub ['.', '.'] ('.' :: l)) = true
  rw [List.isPrefixOf_cons₂, List.isPrefixOf_cons₂, List.isPrefixOf_nil_left]
  simp

theorem sanitizeCore_dots (k : Nat) (h2 : k + 1 ≤ 49) :
    sanitizeCore ('a' :: List.replicate (2 * (k + 1)) '.') 50 = 'a' :: List.replicate (k + 1) '.' := by
  have hrep : List.replicate (2 * (k + 1)) '.' = '.' :: '.' :: List.replicate (2 * k) '.' := by
    have h : 2 * (k + 1) = 2 * k + 2 := by ring
    rw [h]
    rfl
  simp only [sanitizeCore]
  rw [hrep, List.map_cons, List.map_cons, List.map_cons, List.map_replicate]
  rw [show (if illegalChar 'a' then '_' else 'a') = 'a' from rfl,
    show (if illegalChar '.' then '_' else '.') = '.' from rfl]
  have hns : ∀ c ∈ 'a' :: '.' :: '.' :: List.replicate (2 * k) '.', pyIsSpace c = false := by
    intro c hc
    rcases List.mem_cons.mp hc with rfl | hc
    · rfl
    rcases List.mem_cons.mp hc with rfl | hc
    · rfl
    rcases List.mem_cons.mp hc with rfl | hc
    · rfl
    · rw [List.eq_of_mem_replicate hc]; rfl
  rw [collapseWS_noSpace _ false hns, pyStrip_noSpace _ hns]
  rw [show replaceDD ('a' :: '.' :: '.' :: List.replicate (2 * k) '.') =
        'a' :: '.' :: replaceDD (List.replicate (2 * k) '.') from rfl]
  rw [replaceDD_replicate (2 * k)]
  have hhalf : (2 * k + 1) / 2 = k := by omega
  rw [hhalf]
  have hlen : ('a' :: '.' :: List.replicate k '.').length = k + 2 := by simp
  rw [if_neg (by rw [hlen]; omega)]
  rfl

/-- C7 counterexample: `str.replace('..', '.')` makes a single
left-to-right pass, so `sanitize("a....") = "a.."` still contains two
adjacent periods, and the specification's own example
`sanitize("A/B: The \"Great\" Chapter?? ..........", 50)` ends in five
consecutive periods — the claimed "never contains two adjacent periods"
is false. -/
theorem sanitize_dots_counterexample :
    sanitize_filename "a...." 50 = "a.." ∧
    hasSub ['.', '.'] (sanitize_filename "a...." 50).data = true ∧
    sanitize_filename "A/B: The \"Great\" Chapter?? .........." 50 =
      "A_B_ The _Great_ Chapter__ ....." ∧
    hasSub ['.', '.'] (sanitize_filename "A/B: The \"Great\" Chapter?? .........." 50).data =
      true :=
  ⟨by decide, by decide, by decide, by decide⟩

/-- C7 amended: the sanitizer replaces consecutive-period pairs
left-to-right in a single non-overlapping pass, so a run of `m` periods
becomes `⌈m/2⌉` periods; runs of four or more periods therefore still
leave adjacent periods in the result. -/
theorem sanitize_dots_amended (n : Nat) (h1 : 1 ≤ n) (h2 : n ≤ 49) :
    (∀ m, replaceDD (List.replicate m '.') = List.replicate ((m + 1) / 2) '.') ∧
    sanitize_filename (String.mk ('a' :: List.replicate (2 * n) '.')) 50 =
      String.mk ('a' :: List.replicate n '.') ∧
    (2 ≤ n → hasSub ['.', '.']
      (sanitize_filename (String.mk ('a' :: List.replicate (2 * n) '.')) 50).data = true) := by
  obtain ⟨k, rfl⟩ : ∃ k, n = k + 1 := ⟨n - 1, by omega⟩
  have hcore := sanitizeCore_dots k (by omega)
  refine ⟨replaceDD_replicate, ?_, ?_⟩
  · show String.mk (sanitizeCore ('a' :: List.replicate (2 * (k + 1)) '.') 50) = _
    rw [hcore]
  · intro hn
    show hasSub ['.', '.']
      (String.mk (sanitizeCore ('a' :: List.replicate (2 * (k + 1)) '.') 50)).data = true
    rw [hcore]
    obtain ⟨m, rfl⟩ : ∃ m, k = m + 1 := ⟨k - 1, by omega⟩
    show hasSub ['.', '.'] ('a' :: '.' :: '.' :: List.replicate m '.') = true
    exact hasSub_tail _ _ _ (hasSub_dd _)

theorem sanitize_dots_amended_witness :
    1 ≤ 2 ∧ 2 ≤ 49 ∧
    ((∀ m, replaceDD (List.replicate m '.') = List.replicate ((m + 1) / 2) '.') ∧
      sanitize_filename (String.mk ('a' :: List.replicate (2 * 2) '.')) 50 =
        String.mk ('a' :: List.replicate 2 '.') ∧
      (2 ≤ 2 → hasSub ['.', '.']
        (sanitize_filename (String.mk ('a' :: List.replicate (2 * 2) '.')) 50).data = true)) :=
  ⟨by decide, by decide, sanitize_dots_amended 2 (by decide) (by decide)⟩

/-! ## Claim C2 (corrected): out-of-range page numbers -/

/-- C2 counterexample: on the line `Chapter .... 99999 intro 42`, pattern
1 matches with page capture `99999`, outside `[1, 10000]` — yet the line
is not abandoned: pattern 2 is still tried, matches with page `42`, and
the line yields the candidate `("Chapter .... 99999 intro", 42)`. -/
theorem page_range_rejection_counterexample :
    reSearch pat1 "Chapter .... 99999 intro 42".data =
      some [(1, "Chapter".data), (2, "99999".data)] ∧
    digitsToNat "99999".data = 99999 ∧
    ¬(1 ≤ 99999 ∧ 99999 ≤ 10000) ∧
    tryPattern pat1 "Chapter .... 99999 intro 42".data = none ∧
    extractLine toc_patterns "Chapter .... 99999 intro 42".data =
      some ("Chapter .... 99999 intro", 42) ∧
    extract_toc_from_text "Chapter .... 99999 intro 42".data =
      [("Chapter .... 99999 intro", 42)] :=
  ⟨by decide, by decide, by decide, by decide, by decide, by decide⟩

/-- C2 amended: when a pattern matches a line but yields no accepted
candidate (in particular when its page capture falls outside
`[1, 10000]`), only that pattern is skipped: the matcher proceeds with
the remaining patterns on the same line, and the line is abandoned only
if every pattern fails or is rejected. -/
theorem page_range_rejection_amended (p : RE) (ps : List RE) (line : List Char)
    (_hmatch : reSearch p line ≠ none) (hrej : tryPattern p line = none) :
    extractLine (p :: ps) line = extractLine ps line := by
  show (match tryPattern p line with
        | some c => some c
        | none => extractLine ps line) = extractLine ps line
  rw [hrej]

theorem page_range_rejection_amended_witness :
    reSearch pat1 "Chapter .... 99999 intro 42".data ≠ none ∧
    tryPattern pat1 "Chapter .... 99999 intro 42".data = none ∧
    extractLine (pat1 :: [pat2, pat3, pat4, pat5]) "Chapter .... 99999 intro 42".data =
      extractLine [pat2, pat3, pat4, pat5] "Chapter .... 99999 intro 42".data :=
  ⟨by decide, by decide,
    page_range_rejection_amended pat1 [pat2, pat3, pat4, pat5]
      "Chapter .... 99999 intro 42".data (by decide) (by decide)⟩

/-! ## Claim C9: exit codes and partial success -/

theorem writeLoop_length (p : Nat → Bool) :
    ∀ (files : List String) (k : Nat),
      (writeLoop p k files).length = ((List.range files.length).filter fun x => p (x + k)).length
  | [], _ => rfl
  | f :: rest, k => by
    rw [show List.range (f :: rest).length = List.range (rest.length + 1) from rfl,
      List.range_succ_eq_map, List.filter_cons]
    show (if p k then f :: writeLoop p (k + 1) rest else writeLoop p (k + 1) rest).length = _
    have hmapped :
        ((List.map Nat.succ (List.range rest.length)).filter fun x => p (x + k)).length =
          (writeLoop p (k + 1) rest).length := by
      rw [List.filter_map, List.length_map, writeLoop_length p rest (k + 1)]
      congr 1
      apply List.filter_congr
      intro x _
      show p (Nat.succ x + k) = p (x + (k + 1))
      congr 1
      omega
    by_cases hp : p (0 + k)
    · rw [if_pos hp, if_pos (by simpa using hp)]
      simp only [List.length_cons, hmapped]
    · rw [if_neg hp, if_neg (by simpa using hp)]
      exact hmapped.symm

/-- C9 — exit codes: a run exits 0 exactly when the input file exists, the
source document opens, and planning does not raise (the only fatal
planning error is the `ZeroDivisionError` of a zero `--size` in page mode;
chapter mode always plans with the nonzero fallback size); per-chunk write
failures are skipped and do not change the exit code; the run exits 1
otherwise; and on a completed run the reported count is the number of
planned chunks whose write succeeded. -/
theorem exit_codes (chaptersMode : Bool) (w : World) (parent stem : String)
    (output_dir : Option String) (size : Nat) :
    ((mainRun chaptersMode w parent stem output_dir size).1 = 0 ↔
      w.inputExists = true ∧ w.openOk = true ∧ (chaptersMode = false → 1 ≤ size)) ∧
    (w.inputExists = true → w.openOk = true → (chaptersMode = false → 1 ≤ size) →
      (mainRun chaptersMode w parent stem output_dir size).2 =
        ((List.range (plannedChunks chaptersMode w parent stem output_dir size)).filter
          w.writeOk).length) := by
  by_cases h1 : w.inputExists = true
  · by_cases h2 : w.openOk = true
    · cases chaptersMode with
      | false =>
        by_cases hs : size = 0
        · subst hs
          refine ⟨by simp [mainRun, runPages, h1, h2], fun _ _ hsz => ?_⟩
          exact absurd (hsz rfl) (by omega)
        · refine ⟨by simp [mainRun, runPages, h1, h2, hs, Nat.one_le_iff_ne_zero],
            fun _ _ _ => ?_⟩
          simp [mainRun, runPages, h1, h2, hs, writeLoop_length, plannedChunks]
      | true =>
        cases hpl : split_by_chapters_plan parent stem output_dir w.pdfPages with
        | fallback pl =>
          refine ⟨by simp [mainRun, runChapters, h1, h2, hpl], fun _ _ _ => ?_⟩
          simp [mainRun, runChapters, h1, h2, hpl, writeLoop_length, plannedChunks]
        | chapters d items =>
          refine ⟨by simp [mainRun, runChapters, h1, h2, hpl], fun _ _ _ => ?_⟩
          simp [mainRun, runChapters, h1, h2, hpl, writeLoop_length, plannedChunks]
    · have h2f : w.openOk = false := by revert h2; cases w.openOk <;> simp
      refine ⟨?_, fun _ hok => absurd hok h2⟩
      cases chaptersMode <;>
        simp [mainRun, runPages, runChapters, h1, h2f]
  · have h1f : w.inputExists = false := by revert h1; cases w.inputExists <;> simp
    refine ⟨?_, fun hex _ => absurd hex h1⟩
    cases chaptersMode <;>
      simp [mainRun, runPages, runChapters, h1f]

set_option maxRecDepth 4000 in
theorem exit_codes_witness :
    (mainRun false ⟨true, true, List.replicate 250 (some ""), fun k => k != 1⟩
      "par" "book" (some "out") 99).1 = 0 ∧
    (mainRun false ⟨true, true, List.replicate 250 (some ""), fun k => k != 1⟩
      "par" "book" (some "out") 99).2 =
      ((List.range (plannedChunks false
          ⟨true, true, List.replicate 250 (some ""), fun k => k != 1⟩
          "par" "book" (some "out") 99)).filter fun k => k != 1).length ∧
    (mainRun false ⟨true, true, List.replicate 250 (some ""), fun k => k != 1⟩
      "par" "book" (some "out") 99).2 = 2 ∧
    ¬(mainRun false ⟨true, true, List.replicate 250 (some ""), fun k => k != 1⟩
      "par" "book" (some "out") 0).1 = 0 ∧
    (mainRun false ⟨true, true, List.replicate 250 (some ""), fun k => k != 1⟩
      "par" "book" (some "out") 0).1 = 1 :=
  ⟨((exit_codes false ⟨true, true, List.replicate 250 (some ""), fun k => k != 1⟩
      "par" "book" (some "out") 99).1).mpr ⟨rfl, rfl, fun _ => by decide⟩,
    (exit_codes false ⟨true, true, List.replicate 250 (some ""), fun k => k != 1⟩
      "par" "book" (some "out") 99).2 rfl rfl (fun _ => by decide),
    by decide,
    fun h => by
      have := ((exit_codes false ⟨true, true, List.replicate 250 (some ""), fun k => k != 1⟩
        "par" "book" (some "out") 0).1).mp h
      exact absurd (this.2.2 rfl) (by decide),
    by decide⟩
